import Mathlib

/-!
Verification development for an input-device event factory and its
surrounding Chromium sources (screen_gtk.cc, app_launcher_handler.cc,
event_factory.h).  Each C++ function the claims touch is shallowly
embedded as an executable Lean definition; external toolkit state (GDK
screens, filesystem directories, device openability) is passed
explicitly as data.
-/

namespace ScreenGtk

/-- Integer rectangle, embedding gfx::Rect as used by screen_gtk.cc
(x, y, width, height as machine ints, modelled as unbounded Int). -/
structure Rect where
  x : Int
  y : Int
  w : Int
  h : Int
deriving DecidableEq, Repr

/-- Embedding of gfx::IntersectRects for two rectangles: the largest
rectangle contained in both, or an empty rectangle at the shared
origin-clamp when they do not intersect. -/
def IntersectRects (a b : Rect) : Rect :=
  let rx := max a.x b.x
  let ry := max a.y b.y
  let rr := min (a.x + a.w) (b.x + b.w)
  let rb := min (a.y + a.h) (b.y + b.h)
  if rx < rr ∧ ry < rb then ⟨rx, ry, rr - rx, rb - ry⟩ else ⟨rx, ry, 0, 0⟩

/-- Embedding of gfx::Display as screen_gtk.cc uses it: an id, bounds, and
a work area.  The constructor Display(id, bounds) initialises the work
area to the bounds; set_work_area overrides it. -/
structure Display where
  id : Int
  bounds : Rect
  workArea : Rect
deriving DecidableEq, Repr

/-- The GDK screen state read by screen_gtk.cc, passed explicitly: the
monitor count returned by gdk_screen_get_n_monitors (documented
non-negative), per-monitor geometry from gdk_screen_get_monitor_geometry,
the primary monitor index from gdk_screen_get_primary_monitor, and the
_NET_WORKAREA root-window property (none when gdk_property_get fails or
returns fewer than four longs, in which case GetScreenWorkArea returns
false). -/
structure GdkScreenState where
  nMonitors : Nat
  monitorGeometry : Nat → Rect
  primaryMonitor : Nat
  netWorkArea : Option Rect

/-- Embedding of the anonymous-namespace helper GetScreenWorkArea: returns
the _NET_WORKAREA rectangle when the property read succeeds with enough
data, otherwise nothing. -/
def GetScreenWorkArea (s : GdkScreenState) : Option Rect :=
  s.netWorkArea

/-- Embedding of GetDisplayForMonitorNum: builds a Display whose id is the
monitor number and whose bounds are that monitor's geometry; only for the
primary monitor, and only when GetScreenWorkArea succeeds, the work area
is set to the intersection of the _NET_WORKAREA rect with the bounds. -/
def GetDisplayForMonitorNum (s : GdkScreenState) (monitorNum : Nat) : Display :=
  let bounds := s.monitorGeometry monitorNum
  let display : Display := ⟨(monitorNum : Int), bounds, bounds⟩
  if s.primaryMonitor = monitorNum then
    match GetScreenWorkArea s with
    | some rect => { display with workArea := IntersectRects rect display.bounds }
    | none => display
  else display

/-- Embedding of ScreenGtk::GetNumDisplays: returns
gdk_screen_get_n_monitors as a gint. -/
def GetNumDisplays (s : GdkScreenState) : Int :=
  (s.nMonitors : Int)

/-- Embedding of ScreenGtk::GetAllDisplays: loops i from 0 below the
monitor count, pushing GetDisplayForMonitorNum(screen, i). -/
def GetAllDisplays (s : GdkScreenState) : List Display :=
  (List.range s.nMonitors).map (GetDisplayForMonitorNum s)

/-- Embedding of ScreenGtk::GetPrimaryDisplay: the display for the
primary monitor index. -/
def GetPrimaryDisplay (s : GdkScreenState) : Display :=
  GetDisplayForMonitorNum s s.primaryMonitor

/-- Embedding of ScreenGtk::GetDisplayMatching: the body ignores
match_rect entirely and returns GetPrimaryDisplay(). -/
def GetDisplayMatching (s : GdkScreenState) (matchRect : Rect) : Display :=
  GetPrimaryDisplay s

/-- Concrete two-monitor screen state used to witness the display
theorems. -/
def exampleScreen : GdkScreenState :=
  { nMonitors := 2
    monitorGeometry := fun i => ⟨(i : Int) * 1024, 0, 1024, 768⟩
    primaryMonitor := 0
    netWorkArea := some ⟨0, 20, 2048, 748⟩ }

end ScreenGtk

namespace AppLauncher

/-- Whitespace predicate matching base::TrimWhitespace's ASCII whitespace
set (space, tab, newline, carriage return, form feed, vertical tab). -/
def isWhitespaceChar (c : Char) : Bool :=
  c == ' ' || c == '\t' || c == '\n' || c == '\x0d' || c == '\x0c' || c == '\x0b'

/-- Embedding of base::TrimWhitespace with TRIM_ALL: drops leading and
trailing ASCII whitespace from a character list. -/
def trimWhitespace (l : List Char) : List Char :=
  ((l.dropWhile isWhitespaceChar).reverse.dropWhile isWhitespaceChar).reverse

/-- Embedding of base::SplitString's positional split on a separator
character: one piece per separator boundary, so an input with k
separators yields exactly k + 1 pieces (the empty string yields one empty
piece), each piece whitespace-trimmed as SplitString does. -/
def splitOnChar (c : Char) : List Char → List (List Char)
  | [] => [[]]
  | x :: xs =>
    let rest := splitOnChar c xs
    if x == c then
      [] :: rest
    else
      match rest with
      | [] => [[x]]
      | piece :: more => (x :: piece) :: more

/-- Untrimmed piece split, used to relate piece count to separator count;
base::SplitString is this followed by trimming each piece. -/
def SplitString (path : List Char) (c : Char) : List (List Char) :=
  (splitOnChar c path).map trimWhitespace

/-- Boolean test that pat occurs as a contiguous substring of the second
list, embedding std::string::find(pat) != npos. -/
def hasSubL (pat : List Char) : List Char → Bool
  | [] => pat.isEmpty
  | x :: xs => pat.isPrefixOf (x :: xs) || hasSubL pat xs

/-- The URL fragment kLaunchAppPingURL from app_launcher_handler.cc. -/
def kLaunchAppPingURL : List Char := "record-app-launch".data

/-- The URL fragment kLaunchWebStorePingURL from app_launcher_handler.cc. -/
def kLaunchWebStorePingURL : List Char := "record-webstore-launch".data

/-- Embedding of IsPromoActive: splits the path on the plus character,
CHECKs that exactly two parts result (none models the CHECK aborting the
program), and otherwise reports whether the second part equals true. -/
def IsPromoActive (path : List Char) : Option Bool :=
  let params := SplitString path '+'
  if params.length = 2 then
    some (params.getD 1 [] == "true".data)
  else
    none

/-- Embedding of AppLauncherHandler::HandlePing: if the path contains the
webstore-launch fragment, records the launch via IsPromoActive and
returns true; else if it contains the app-launch fragment, likewise;
otherwise returns false.  none models the program aborting inside
IsPromoActive's CHECK. -/
def HandlePing (path : List Char) : Option Bool :=
  if hasSubL kLaunchWebStorePingURL path then
    match IsPromoActive path with
    | some _ => some true
    | none => none
  else if hasSubL kLaunchAppPingURL path then
    match IsPromoActive path with
    | some _ => some true
    | none => none
  else
    some false

end AppLauncher

namespace EventFactory

/-- The two device-discovery strategies of EventFactoryEvdev: the udev
daemon subscription (compiled under USE_UDEV) and the manual /dev/input
scan. -/
inductive Strategy where
  | udev
  | manual
deriving DecidableEq, Repr

/-- Modelled from the spec: the EventFactoryEvdev implementation is not
in the sources (only event_factory.h declares it), so the factory state
is taken from the spec's data model: the device registry converters
(path keyed, owning one converter id per entry), the shared modifier
bitfield, whether start has already run, the selected discovery
strategy, converter ids whose device handles were released on detach, a
log of abandoned attaches, and a counter for fresh converter ids. -/
structure FactoryState where
  converters : List (String × Nat)
  modifiers : Nat
  started : Bool
  strategy : Option Strategy
  released : List Nat
  log : List String
  nextId : Nat
deriving DecidableEq, Repr

/-- The factory state at construction: empty registry, no modifiers,
processing not started. -/
def initialState : FactoryState :=
  { converters := [], modifiers := 0, started := false, strategy := none
    released := [], log := [], nextId := 0 }

/-- The paths currently holding a live converter in the registry. -/
def registryPaths (s : FactoryState) : List String :=
  s.converters.map Prod.fst

/-- Modelled from the spec: the external inputs to discovery, passed
explicitly: the entries of the canonical input-device directory
(/dev/input), which device paths can actually be opened, and the devices
the udev daemon enumerates as initially present. -/
structure DiscoveryEnv where
  directory : List String
  openable : String → Bool
  udevInitialDevices : List String

/-- Modelled from the spec: detach(path) removes and destroys the
registry entry for the path, releasing its device handle (recorded in
released); it is a no-op when no converter is registered for the path. -/
def DetachInputDevice (p : String) (s : FactoryState) : FactoryState :=
  match s.converters.find? (fun c => c.1 == p) with
  | none => s
  | some c =>
    { s with
      converters := s.converters.filter (fun e => e.1 != p)
      released := s.released ++ [c.2] }

/-- Modelled from the spec: attach(path) opens the device; on failure
(permission denied or the device vanished) the attach is abandoned with a
log entry and no other state change.  On success, any converter already
registered for the path is detached first, then a fresh converter bound
to the shared modifier state is inserted keyed by the path. -/
def AttachInputDevice (openable : String → Bool) (p : String)
    (s : FactoryState) : FactoryState :=
  if openable p then
    let s1 := DetachInputDevice p s
    { s1 with
      converters := (p, s.nextId) :: s1.converters
      nextId := s.nextId + 1 }
  else
    { s with log := s.log ++ ["cannot open " ++ p] }

/-- The naming convention for input nodes under /dev/input: the final
path component starts with the word event. -/
def matchesInputNode (p : String) : Bool :=
  "event".data.isPrefixOf ((AppLauncher.splitOnChar '/' p.data).getLastD p.data)

/-- Modelled from the spec: the manual strategy performs one enumeration
pass of the input-device directory, filtering to entries matching the
input-node naming convention; this is the finite sequence of attach
events it yields before completing. -/
def manualAttachEvents (dir : List String) : List String :=
  dir.filter matchesInputNode

/-- Modelled from the spec: StartProcessingEventsManual scans /dev/input
once and attaches each matching entry, then completes; no later-plugged
device is ever discovered. -/
def StartProcessingEventsManual (env : DiscoveryEnv) (s : FactoryState) :
    FactoryState :=
  (manualAttachEvents env.directory).foldl
    (fun st p => AttachInputDevice env.openable p st) s

/-- Modelled from the spec: StartProcessingEventsUdev opens the daemon
subscription and attaches each initially present device; further
add/remove notifications arrive later as AttachInputDevice and
DetachInputDevice calls. -/
def StartProcessingEventsUdev (env : DiscoveryEnv) (s : FactoryState) :
    FactoryState :=
  env.udevInitialDevices.foldl
    (fun st p => AttachInputDevice env.openable p st) s

/-- Modelled from the spec: StartProcessingEvents is the idempotent entry
point; while already started it is a no-op, otherwise it marks the
factory started, selects the udev strategy exactly when USE_UDEV is
compiled in and the manual strategy otherwise, and runs the selected
strategy's initial pass. -/
def StartProcessingEvents (useUdev : Bool) (env : DiscoveryEnv)
    (s : FactoryState) : FactoryState :=
  if s.started then s
  else
    let s1 := { s with
      started := true
      strategy := some (if useUdev then Strategy.udev else Strategy.manual) }
    if useUdev then StartProcessingEventsUdev env s1
    else StartProcessingEventsManual env s1

/-- A device add or remove notification, as a udev-style discovery source
delivers them to the factory. -/
inductive DevOp where
  | add (p : String)
  | remove (p : String)
deriving DecidableEq, Repr

/-- Applying one attach or detach notification to the factory state. -/
def applyOp (openable : String → Bool) (s : FactoryState) (op : DevOp) :
    FactoryState :=
  match op with
  | .add p => AttachInputDevice openable p s
  | .remove p => DetachInputDevice p s

/-- Applying a sequence of attach and detach notifications in order. -/
def applyOps (openable : String → Bool) (ops : List DevOp)
    (s : FactoryState) : FactoryState :=
  ops.foldl (applyOp openable) s

/-- The registry invariant: at most one live converter per device path,
expressed as the path column of the registry having no duplicates. -/
def RegistryOk (s : FactoryState) : Prop :=
  (registryPaths s).Nodup

instance (s : FactoryState) : Decidable (RegistryOk s) := by
  unfold RegistryOk; infer_instance

/-- A factory state with one converter registered, used to witness the
detach theorems. -/
def exampleRegState : FactoryState :=
  { initialState with converters := [("/dev/input/event2", 0)], nextId := 1 }

/-- A factory state in which processing has already been started, used to
witness the idempotence theorem. -/
def exampleStartedState : FactoryState :=
  { initialState with started := true, strategy := some Strategy.manual }

/-- A discovery environment with an empty directory where every path is
openable, used in witnesses. -/
def exampleEnv : DiscoveryEnv :=
  { directory := [], openable := fun _ => true, udevInitialDevices := [] }

/-- The spec's daemon-notification example sequence: add event2, add
event5, remove event2, then the final add event2 is taken separately by
the attach theorem. -/
def exampleOps : List DevOp :=
  [DevOp.add "/dev/input/event2", DevOp.add "/dev/input/event5",
   DevOp.remove "/dev/input/event2"]

end EventFactory

namespace EventFactory

theorem attach_strategy (o : String → Bool) (p : String) (s : FactoryState) :
    (AttachInputDevice o p s).strategy = s.strategy := by
  cases ho : o p with
  | true =>
    cases hf : s.converters.find? (fun c => c.1 == p) <;>
      simp [AttachInputDevice, DetachInputDevice, ho, hf]
  | false => simp [AttachInputDevice, ho]

theorem attachAll_strategy (o : String → Bool) (l : List String)
    (s : FactoryState) :
    (l.foldl (fun st p => AttachInputDevice o p st) s).strategy = s.strategy := by
  induction l generalizing s with
  | nil => rfl
  | cons a l ih => rw [List.foldl_cons, ih, attach_strategy]

theorem mem_paths_attach (o : String → Bool) (p x : String) (s : FactoryState)
    (h : o p = true) :
    x ∈ registryPaths (AttachInputDevice o p s) ↔ x = p ∨ x ∈ registryPaths s := by
  cases hf : s.converters.find? (fun c => c.1 == p) with
  | none =>
    simp [AttachInputDevice, DetachInputDevice, h, hf, registryPaths]
  | some c =>
    simp only [AttachInputDevice, DetachInputDevice, h, if_pos, hf, registryPaths,
      List.map_cons, List.mem_cons, List.mem_map, List.mem_filter]
    by_cases hx : x = p
    · simp [hx]
    · simp only [hx, false_or]
      constructor
      · rintro ⟨a, ⟨ha, _⟩, rfl⟩
        exact ⟨a, ha, rfl⟩
      · rintro ⟨a, ha, rfl⟩
        exact ⟨a, ⟨ha, by simpa using hx⟩, rfl⟩

theorem countP_attach_eq_one (o : String → Bool) (p : String) (s : FactoryState)
    (h : o p = true) :
    (AttachInputDevice o p s).converters.countP (fun c => c.1 == p) = 1 := by
  cases hf : s.converters.find? (fun c => c.1 == p) with
  | none =>
    have hz : s.converters.countP (fun c => c.1 == p) = 0 := by
      refine List.countP_eq_zero.mpr ?_
      intro a ha
      simpa using List.find?_eq_none.mp hf a ha
    simp [AttachInputDevice, DetachInputDevice, h, hf, List.countP_cons, hz]
  | some c =>
    have hz : (s.converters.filter (fun e => e.1 != p)).countP
        (fun c => c.1 == p) = 0 := by
      refine List.countP_eq_zero.mpr ?_
      intro a ha
      simpa using (List.mem_filter.mp ha).2
    simp [AttachInputDevice, DetachInputDevice, h, hf, List.countP_cons, hz]

theorem registryOk_attach (o : String → Bool) (p : String) (s : FactoryState)
    (h : RegistryOk s) : RegistryOk (AttachInputDevice o p s) := by
  cases ho : o p with
  | false => simpa [AttachInputDevice, ho, RegistryOk, registryPaths] using h
  | true =>
    cases hf : s.converters.find? (fun c => c.1 == p) with
    | none =>
      have hp : p ∉ (s.converters.map Prod.fst) := by
        intro hmem
        obtain ⟨a, ha, ha1⟩ := List.mem_map.mp hmem
        have := List.find?_eq_none.mp hf a ha
        simp [ha1] at this
      simp only [RegistryOk, registryPaths, AttachInputDevice, DetachInputDevice,
        ho, if_pos, hf, List.map_cons, List.nodup_cons]
      exact ⟨hp, h⟩
    | some c =>
      have hsub : ((s.converters.filter (fun e => e.1 != p)).map Prod.fst).Sublist
          (s.converters.map Prod.fst) :=
        (List.filter_sublist s.converters).map Prod.fst
      have hp : p ∉ ((s.converters.filter (fun e => e.1 != p)).map Prod.fst) := by
        intro hmem
        obtain ⟨a, ha, ha1⟩ := List.mem_map.mp hmem
        have := (List.mem_filter.mp ha).2
        simp [ha1] at this
      simp only [RegistryOk, registryPaths, AttachInputDevice, DetachInputDevice,
        ho, if_pos, hf, List.map_cons, List.nodup_cons]
      exact ⟨hp, h.sublist hsub⟩

theorem registryOk_detach (p : String) (s : FactoryState)
    (h : RegistryOk s) : RegistryOk (DetachInputDevice p s) := by
  cases hf : s.converters.find? (fun c => c.1 == p) with
  | none => simpa [DetachInputDevice, hf, RegistryOk, registryPaths] using h
  | some c =>
    have hsub : ((s.converters.filter (fun e => e.1 != p)).map Prod.fst).Sublist
        (s.converters.map Prod.fst) :=
      (List.filter_sublist s.converters).map Prod.fst
    simpa [DetachInputDevice, hf, RegistryOk, registryPaths] using h.sublist hsub

theorem registryOk_applyOps (o : String → Bool) (ops : List DevOp)
    (s : FactoryState) (h : RegistryOk s) :
    RegistryOk (applyOps o ops s) := by
  induction ops generalizing s with
  | nil => exact h
  | cons op ops ih =>
    cases op with
    | add p => exact ih _ (registryOk_attach o p s h)
    | remove p => exact ih _ (registryOk_detach p s h)

end EventFactory

namespace ScreenGtk

theorem display_id_eq (s : GdkScreenState) (m : Nat) :
    (GetDisplayForMonitorNum s m).id = (m : Int) := by
  unfold GetDisplayForMonitorNum
  cases hw : GetScreenWorkArea s <;>
    by_cases hp : s.primaryMonitor = m <;> simp [hw, hp]

/-- C8: GetAllDisplays returns a vector whose length equals the value of
GetNumDisplays (the GDK monitor count), and the i-th returned display has
display id i, its monitor number. -/
theorem getAllDisplays_length_and_ids (s : GdkScreenState) :
    ((GetAllDisplays s).length : Int) = GetNumDisplays s ∧
    ∀ i : Nat, ∀ h : i < (GetAllDisplays s).length,
      ((GetAllDisplays s).get ⟨i, h⟩).id = (i : Int) := by
  constructor
  · simp [GetAllDisplays, GetNumDisplays]
  · intro i h
    simp [GetAllDisplays, List.get_eq_getElem, display_id_eq]

/-- Witness for the display enumeration theorem at the concrete
two-monitor screen: monitor 1 is in range and its display id is 1. -/
theorem getAllDisplays_length_and_ids_witness :
    (1 < (GetAllDisplays exampleScreen).length) ∧
    ((GetAllDisplays exampleScreen).get ⟨1, by decide⟩).id = (1 : Int) :=
  ⟨by decide, (getAllDisplays_length_and_ids exampleScreen).2 1 (by decide)⟩

/-- C9: GetDisplayMatching returns exactly the result of
GetPrimaryDisplay and does not depend on its match_rect argument in any
way. -/
theorem getDisplayMatching_ignores_rect (s : GdkScreenState) (r1 r2 : Rect) :
    GetDisplayMatching s r1 = GetPrimaryDisplay s ∧
    GetDisplayMatching s r1 = GetDisplayMatching s r2 :=
  ⟨rfl, rfl⟩

end ScreenGtk

namespace AppLauncher

theorem splitOnChar_length (c : Char) (l : List Char) :
    (splitOnChar c l).length = l.count c + 1 := by
  induction l with
  | nil => simp [splitOnChar]
  | cons x xs ih =>
    cases hx : x == c with
    | true =>
      simp [splitOnChar, hx, List.count_cons, ih]
    | false =>
      cases hr : splitOnChar c xs with
      | nil => rw [hr] at ih; simp at ih
      | cons piece more =>
        rw [hr] at ih
        simp only [List.length_cons] at ih
        simp [splitOnChar, hx, hr, List.count_cons, ih]

theorem isPromoActive_abort (path : List Char) (h : path.count '+' ≠ 1) :
    IsPromoActive path = none := by
  have hl : (SplitString path '+').length = path.count '+' + 1 := by
    simp [SplitString, splitOnChar_length]
  have hne : (SplitString path '+').length ≠ 2 := by omega
  simp [IsPromoActive, hne]

/-- C10: a ping path containing the app-launch or webstore-launch
fragment reaches IsPromoActive, whose CHECK demands that splitting on the
plus character yield exactly two parts; a path without exactly one plus
separator therefore yields a part count other than two and HandlePing
aborts in the CHECK (modelled as none) instead of returning false. -/
theorem handlePing_check_aborts (path : List Char)
    (hc : hasSubL kLaunchAppPingURL path = true ∨
          hasSubL kLaunchWebStorePingURL path = true)
    (h : path.count '+' ≠ 1) :
    (SplitString path '+').length ≠ 2 ∧ HandlePing path = none := by
  have hl : (SplitString path '+').length = path.count '+' + 1 := by
    simp [SplitString, splitOnChar_length]
  have hip := isPromoActive_abort path h
  refine ⟨by omega, ?_⟩
  unfold HandlePing
  rcases hc with hA | hW
  · cases hw : hasSubL kLaunchWebStorePingURL path <;> simp [hw, hA, hip]
  · simp [hW, hip]

/-- Witness for the CHECK-abort theorem: the bare app-launch ping path
has no plus separator, so HandlePing aborts on it. -/
theorem handlePing_check_aborts_witness :
    ((hasSubL kLaunchAppPingURL "record-app-launch".data = true ∨
      hasSubL kLaunchWebStorePingURL "record-app-launch".data = true) ∧
     "record-app-launch".data.count '+' ≠ 1) ∧
    ((SplitString "record-app-launch".data '+').length ≠ 2 ∧
     HandlePing "record-app-launch".data = none) :=
  ⟨⟨Or.inl (by decide), by decide⟩,
   handlePing_check_aborts _ (Or.inl (by decide)) (by decide)⟩

end AppLauncher

namespace EventFactory

/-- C1: over every sequence of attach and detach operations from the
initial factory state (including re-attaching present paths and the
add, add, remove, add sequence) the registry holds at most one live
converter per device path, and attaching an openable path always leaves
exactly one live converter registered for that path. -/
theorem registry_one_converter_per_path (o : String → Bool) (ops : List DevOp)
    (p : String) (h : o p = true) :
    RegistryOk (applyOps o ops initialState) ∧
    (AttachInputDevice o p (applyOps o ops initialState)).converters.countP
      (fun c => c.1 == p) = 1 :=
  ⟨registryOk_applyOps o ops initialState (by decide),
   countP_attach_eq_one o p _ h⟩

/-- Witness for the registry invariant on the spec's daemon example:
after add event2, add event5, remove event2, the final add of event2
leaves exactly one live converter for it and the invariant holds. -/
theorem registry_one_converter_per_path_witness :
    ((fun _ : String => true) "/dev/input/event2" = true) ∧
    (RegistryOk (applyOps (fun _ => true) exampleOps initialState) ∧
     (AttachInputDevice (fun _ => true) "/dev/input/event2"
        (applyOps (fun _ => true) exampleOps initialState)).converters.countP
        (fun c => c.1 == "/dev/input/event2") = 1) :=
  ⟨rfl, registry_one_converter_per_path (fun _ => true) exampleOps
    "/dev/input/event2" rfl⟩

/-- C3: from a not-yet-started factory, StartProcessingEvents selects the
udev daemon strategy exactly when USE_UDEV is available and otherwise the
manual strategy, and no other configuration input affects the choice
(any two discovery environments select the same strategy). -/
theorem start_selects_strategy (useUdev : Bool) (env env2 : DiscoveryEnv)
    (s : FactoryState) (h : s.started = false) :
    (StartProcessingEvents useUdev env s).strategy
      = some (if useUdev then Strategy.udev else Strategy.manual) ∧
    (StartProcessingEvents useUdev env s).strategy
      = (StartProcessingEvents useUdev env2 s).strategy := by
  have hstep : ∀ e : DiscoveryEnv,
      (StartProcessingEvents useUdev e s).strategy
        = some (if useUdev then Strategy.udev else Strategy.manual) := by
    intro e
    cases hu : useUdev <;>
      simp [StartProcessingEvents, h, hu, StartProcessingEventsUdev,
        StartProcessingEventsManual, attachAll_strategy]
  exact ⟨hstep env, (hstep env).trans (hstep env2).symm⟩

/-- Witness for the strategy selection theorem: without USE_UDEV, a fresh
factory selects the manual strategy. -/
theorem start_selects_strategy_witness :
    (initialState.started = false) ∧
    ((StartProcessingEvents false exampleEnv initialState).strategy
       = some (if false then Strategy.udev else Strategy.manual) ∧
     (StartProcessingEvents false exampleEnv initialState).strategy
       = (StartProcessingEvents false exampleEnv initialState).strategy) :=
  ⟨rfl, start_selects_strategy false exampleEnv exampleEnv initialState rfl⟩

theorem mem_paths_attachAll (l : List String) (s : FactoryState) (x : String) :
    x ∈ registryPaths
        (l.foldl (fun st p => AttachInputDevice (fun _ => true) p st) s)
      ↔ x ∈ l ∨ x ∈ registryPaths s := by
  induction l generalizing s with
  | nil => simp
  | cons a l ih =>
    rw [List.foldl_cons, ih, mem_paths_attach (fun _ => true) a x s rfl,
      List.mem_cons]
    tauto

/-- C4: the manual strategy performs a single enumeration pass: with
every device openable, the registry afterwards holds converters for
exactly the directory entries matching the input-node naming convention;
on the spec's example directory the attach events are exactly event0 and
event3 and the pass then completes with that fixed finite registry. -/
theorem manual_scan_attaches_exactly_matching :
    (∀ dir p,
      p ∈ registryPaths (StartProcessingEventsManual
          ⟨dir, fun _ => true, []⟩ initialState)
        ↔ (p ∈ dir ∧ matchesInputNode p = true)) ∧
    manualAttachEvents
        ["/dev/input/event0", "/dev/input/event3", "/dev/input/mouse1"]
      = ["/dev/input/event0", "/dev/input/event3"] ∧
    registryPaths (StartProcessingEventsManual
        ⟨["/dev/input/event0", "/dev/input/event3", "/dev/input/mouse1"],
          fun _ => true, []⟩ initialState)
      = ["/dev/input/event3", "/dev/input/event0"] := by
  refine ⟨?_, by decide, by decide⟩
  intro dir p
  simp only [StartProcessingEventsManual]
  rw [mem_paths_attachAll]
  simp [manualAttachEvents, List.mem_filter, registryPaths, initialState]

/-- C5: when a device path cannot be opened, AttachInputDevice abandons
the attach with one log entry and changes nothing else: the registry is
untouched and the factory continues (the operation returns a state rather
than failing). -/
theorem attach_open_failure_skipped (o : String → Bool) (p : String)
    (s : FactoryState) (h : o p = false) :
    AttachInputDevice o p s = { s with log := s.log ++ ["cannot open " ++ p] } ∧
    (AttachInputDevice o p s).converters = s.converters := by
  constructor <;> simp [AttachInputDevice, h]

/-- Witness for the failed-attach theorem: an unopenable event0 leaves
the fresh registry empty and adds one log line. -/
theorem attach_open_failure_skipped_witness :
    ((fun _ : String => false) "/dev/input/event0" = false) ∧
    (AttachInputDevice (fun _ => false) "/dev/input/event0" initialState
       = { initialState with
           log := initialState.log ++ ["cannot open " ++ "/dev/input/event0"] } ∧
     (AttachInputDevice (fun _ => false) "/dev/input/event0"
        initialState).converters = initialState.converters) :=
  ⟨rfl, attach_open_failure_skipped (fun _ => false) "/dev/input/event0"
    initialState rfl⟩

/-- C6: detach on a path with a registered converter removes and destroys
exactly that registry entry, releasing its handle, while every entry for
another path survives; detach on a path with no registered converter is a
no-op returning the state unchanged. -/
theorem detach_removes_or_noop (s : FactoryState) (p : String) :
    ((∀ c ∈ s.converters, c.1 ≠ p) → DetachInputDevice p s = s) ∧
    ((∃ c ∈ s.converters, c.1 = p) →
      (∀ c ∈ (DetachInputDevice p s).converters, c.1 ≠ p) ∧
      (∀ c ∈ s.converters, c.1 ≠ p →
        c ∈ (DetachInputDevice p s).converters) ∧
      (DetachInputDevice p s).released.length = s.released.length + 1) := by
  constructor
  · intro hnone
    have hf : s.converters.find? (fun c => c.1 == p) = none := by
      refine List.find?_eq_none.mpr ?_
      intro a ha
      simpa using hnone a ha
    simp [DetachInputDevice, hf]
  · intro hex
    cases hf : s.converters.find? (fun c => c.1 == p) with
    | none =>
      obtain ⟨c, hc, hcp⟩ := hex
      have := List.find?_eq_none.mp hf c hc
      simp [hcp] at this
    | some c =>
      refine ⟨?_, ?_, ?_⟩
      · intro a ha
        simp only [DetachInputDevice, hf, List.mem_filter] at ha
        simpa using ha.2
      · intro a ha hap
        simp only [DetachInputDevice, hf, List.mem_filter]
        exact ⟨ha, by simpa using hap⟩
      · simp [DetachInputDevice, hf]

/-- Witness for the detach theorem: removing event2 from a registry
holding only event2 empties the registry and releases one handle. -/
theorem detach_removes_or_noop_witness :
    (∃ c ∈ exampleRegState.converters, c.1 = "/dev/input/event2") ∧
    ((∀ c ∈ (DetachInputDevice "/dev/input/event2"
        exampleRegState).converters, c.1 ≠ "/dev/input/event2") ∧
     (∀ c ∈ exampleRegState.converters, c.1 ≠ "/dev/input/event2" →
        c ∈ (DetachInputDevice "/dev/input/event2"
          exampleRegState).converters) ∧
     (DetachInputDevice "/dev/input/event2" exampleRegState).released.length
       = exampleRegState.released.length + 1) :=
  ⟨by decide,
   (detach_removes_or_noop exampleRegState "/dev/input/event2").2 (by decide)⟩

/-- C7: StartProcessingEvents is idempotent: on any factory state in
which processing has already started, calling it again is a no-op
leaving the whole state (registry, strategy, modifiers) unchanged. -/
theorem start_processing_idempotent (useUdev : Bool) (env : DiscoveryEnv)
    (s : FactoryState) (h : s.started = true) :
    StartProcessingEvents useUdev env s = s := by
  simp [StartProcessingEvents, h]

/-- Witness for idempotence: restarting an already-started factory
returns it unchanged. -/
theorem start_processing_idempotent_witness :
    (exampleStartedState.started = true) ∧
    StartProcessingEvents true exampleEnv exampleStartedState
      = exampleStartedState :=
  ⟨rfl, start_processing_idempotent true exampleEnv exampleStartedState rfl⟩

end EventFactory
